import Mathlib

/-!
Shallow embedding of the power-exporter pipeline (src/main.go): battery
enumeration, uevent parsing, metric derivation, the prometheus gauge store,
and the publish loop, together with theorems settling the specification
claims about them.
-/

set_option autoImplicit false

namespace PowerExporter

/-!.. Data model: the `BatteryInfo` record (src/main.go lines 50-64). -/

/-- Embeds the Go struct `BatteryInfo`.  Go `int` fields become `Int`
(with `atoi` below clamping to the 64-bit range exactly as Go does). -/
structure BatteryInfo where
  name : String
  status : String
  present : Bool
  technology : String
  cycleCount : Int
  voltageNow : Int
  energyFull : Int
  energyNow : Int
  energyDesign : Int
  capacity : Int
  model : String
  manufacturer : String
  serial : String
deriving DecidableEq, Repr

/-- The zero value `&BatteryInfo{Name: name}` created at the top of
`readBatteryInfo` (line 106): Go zero-values every other field. -/
def BatteryInfo.init (name : String) : BatteryInfo :=
  { name := name, status := "", present := false, technology := ""
  , cycleCount := 0, voltageNow := 0, energyFull := 0, energyNow := 0
  , energyDesign := 0, capacity := 0, model := "", manufacturer := ""
  , serial := "" }

/-! .. Model of Go `strconv.Atoi` (value kept, error discarded). -/

/-- Consume an optional leading sign, as `strconv.ParseInt` does; returns
whether the number is negated and the remaining characters. -/
def parseSign : List Char → Bool × List Char
  | '-' :: cs => (true, cs)
  | '+' :: cs => (false, cs)
  | cs => (false, cs)

/-- Digit-string value in base 10. -/
def digitsVal (l : List Char) : Nat :=
  l.foldl (fun a c => 10 * a + (c.toNat - 48)) 0

/-- A character list is a syntactically valid base-10 integer for
`strconv.Atoi`: optional sign followed by one or more ASCII digits. -/
def validInt (l : List Char) : Bool :=
  let ds := (parseSign l).2
  !ds.isEmpty && ds.all Char.isDigit

/-- Largest Go `int` (64-bit). -/
def intMax : Int := 2 ^ 63 - 1

/-- Smallest Go `int` (64-bit). -/
def intMin : Int := -(2 ^ 63)

/-- On range overflow `strconv.ParseInt` returns the saturated value of the
appropriate sign (together with an error the caller discards). -/
def clampInt (n : Int) : Int :=
  if n > intMax then intMax else if n < intMin then intMin else n

/-- Model of `strconv.Atoi(val)` with the error thrown away, which is how
every numeric field of `readBatteryInfo` uses it (`info.X, _ = strconv.Atoi`):
a syntactically invalid value yields 0, a valid one yields its (64-bit
saturated) integer value. -/
def atoi (s : String) : Int :=
  if validInt s.data then
    let p := parseSign s.data
    clampInt (if p.1 then -(digitsVal p.2 : Int) else (digitsVal p.2 : Int))
  else 0

/-! .. Line splitting: `strings.SplitN(line, "=", 2)` (line 110). -/

/-- Split a character list at the first `=`.  `none` models the
`len(parts) != 2` case (no `=` present), which `readBatteryInfo` skips. -/
def splitAtFirstEq : List Char → Option (List Char × List Char)
  | [] => none
  | c :: cs =>
    if c = '=' then some ([], cs)
    else match splitAtFirstEq cs with
      | none => none
      | some p => some (c :: p.1, p.2)

/-! .. The per-line switch of `readBatteryInfo` (lines 108-141). -/

/-- One iteration of the scanner loop: split the line at the first `=`,
then dispatch on the key exactly as the Go `switch` does; unknown keys and
lines without `=` leave the record unchanged. -/
def processLine (info : BatteryInfo) (line : String) : BatteryInfo :=
  match splitAtFirstEq line.data with
  | none => info
  | some p =>
    let key : String := ⟨p.1⟩
    let val : String := ⟨p.2⟩
    if key = "POWER_SUPPLY_STATUS" then { info with status := val }
    else if key = "POWER_SUPPLY_PRESENT" then { info with present := val = "1" }
    else if key = "POWER_SUPPLY_TECHNOLOGY" then { info with technology := val }
    else if key = "POWER_SUPPLY_CYCLE_COUNT" then { info with cycleCount := atoi val }
    else if key = "POWER_SUPPLY_VOLTAGE_NOW" then { info with voltageNow := atoi val }
    else if key = "POWER_SUPPLY_ENERGY_FULL_DESIGN" then { info with energyDesign := atoi val }
    else if key = "POWER_SUPPLY_ENERGY_FULL" then { info with energyFull := atoi val }
    else if key = "POWER_SUPPLY_ENERGY_NOW" then { info with energyNow := atoi val }
    else if key = "POWER_SUPPLY_CAPACITY" then { info with capacity := atoi val }
    else if key = "POWER_SUPPLY_MODEL_NAME" then { info with model := val }
    else if key = "POWER_SUPPLY_MANUFACTURER" then { info with manufacturer := val }
    else if key = "POWER_SUPPLY_SERIAL_NUMBER" then { info with serial := val }
    else info

/-- The scanner loop of `readBatteryInfo` over an already-opened file,
given as its list of lines. -/
def parseUevent (name : String) (lines : List String) : BatteryInfo :=
  lines.foldl processLine (BatteryInfo.init name)

/-- `readBatteryInfo` against an abstract filesystem: `fs b` is the list of
lines of `/sys/class/power_supply/b/uevent`, or `none` when `os.Open`
fails, in which case the function propagates the error (lines 100-103). -/
def readBatteryInfo (fs : String → Option (List String)) (name : String) :
    Option BatteryInfo :=
  (fs name).map (parseUevent name)

/-! .. Metric derivation (src/main.go lines 204-220).  Go `float64`
arithmetic on these small integer inputs is modelled over `ℚ`. -/

/-- `percentage := float64(info.Capacity)` (line 204). -/
def percentage (info : BatteryInfo) : ℚ := (info.capacity : ℚ)

/-- Capacity health (lines 205-208): 100 unless the design energy is
strictly positive, in which case `100 * EnergyFull / EnergyDesign`. -/
def capacityHealth (info : BatteryInfo) : ℚ :=
  if 0 < info.energyDesign then
    100 * (info.energyFull : ℚ) / (info.energyDesign : ℚ)
  else 100

/-- The status switch (lines 210-218): exact-match mapping with default 0. -/
def chargingCode (status : String) : ℚ :=
  if status = "Charging" then 1
  else if status = "Full" then 2
  else if status = "Not charging" then 3
  else 0

/-- `voltage := float64(info.VoltageNow) / 1000000.0` (line 219). -/
def voltageVolts (info : BatteryInfo) : ℚ := (info.voltageNow : ℚ) / 1000000

/-- `energyWh := float64(info.EnergyNow) / 1000000.0` (line 220). -/
def energyWh (info : BatteryInfo) : ℚ := (info.energyNow : ℚ) / 1000000

/-! .. Configuration (src/main.go lines 24-48), flattened. -/

/-- Embeds the Go `Config` struct; only the fields the pipeline reads. -/
structure Config where
  interval : Int
  promEnabled : Bool
  promPort : Int
  promPath : String
  pushEnabled : Bool
  pushURL : String
  pushJob : String
  influxEnabled : Bool
  influxURL : String
  influxToken : String
  influxOrg : String
  influxBucket : String
  host : String
deriving DecidableEq, Repr

/-! .. Device enumeration (`findBatteries`, lines 80-96) and startup. -/

/-- A directory entry of `/sys/class/power_supply` as seen by `os.ReadDir`. -/
structure DirEntry where
  name : String
deriving DecidableEq, Repr

/-- `strings.HasPrefix(e.Name(), "BAT")` (line 88). -/
def isBatName (s : String) : Bool := s.data.take 3 = "BAT".data

/-- `findBatteries` against an abstract directory listing: `entries = none`
models `os.ReadDir` failing, in which case the function logs and returns
the empty list; otherwise it keeps the BAT-named entries whose `uevent`
file stats successfully.  The second component is the log output. -/
def findBatteries (entries : Option (List DirEntry)) (statOk : String → Bool) :
    List String × List String :=
  match entries with
  | none => ([], ["Error reading power_supply"])
  | some es =>
    ((es.filter (fun e =>
        isBatName e.name &&
        statOk ("/sys/class/power_supply/" ++ e.name ++ "/uevent"))).map
      (fun e => e.name), [])

/-! .. The prometheus gauge store (`promGauges`, `initPrometheusMetrics`,
lines 66-181).  A `GaugeVec` is its set of label-indexed children; a child
exists only once `WithLabelValues` has been called for that label. -/

/-- Children of one `prometheus.GaugeVec`: an association list from the
`battery` label value to the current gauge value. -/
abbrev GaugeVec : Type := List (String × ℚ)

/-- Current value of the child for label `l`, `none` when that series has
not been created yet. -/
def lookupChild : GaugeVec → String → Option ℚ
  | [], _ => none
  | p :: rest, l => if p.1 = l then some p.2 else lookupChild rest l

/-- `WithLabelValues(l).Set(v)`: update the existing child for `l`, or
create it on first use. -/
def setChild : GaugeVec → String → ℚ → GaugeVec
  | [], l, v => [(l, v)]
  | p :: rest, l, v =>
    if p.1 = l then (p.1, v) :: rest else p :: setChild rest l v

/-- The six keys of each per-device gauge map (lines 147-172), in source
order. -/
def gaugeKeys : List String :=
  ["percentage", "capacity", "charging", "voltage", "energy_now", "cycle_count"]

/-- Exposition name of each gauge (the `Name:` field of its `GaugeOpts`). -/
def metricName : String → String
  | "percentage" => "battery_percentage"
  | "capacity" => "battery_capacity_percent"
  | "charging" => "battery_charging"
  | "voltage" => "battery_voltage_volts"
  | "energy_now" => "battery_energy_wh"
  | "cycle_count" => "battery_cycle_count"
  | _ => ""

/-- The mutable prometheus state: `gauges d k` is the gauge vector stored
at `promGauges[d][k]`, and `registered` lists the (owner device, key)
pairs whose vectors were passed to `prometheus.MustRegister`. -/
structure PromState where
  gauges : String → String → GaugeVec
  registered : List (String × String)

/-- `initPrometheusMetrics` (lines 145-181): fresh, childless gauge
vectors for every enumerated device, but only the first device's six
vectors registered. -/
def initPrometheusMetrics (bats : List String) : PromState :=
  { gauges := fun _ _ => []
  , registered :=
      match bats with
      | [] => []
      | b :: _ => gaugeKeys.map (fun k => (b, k)) }

/-- What `promhttp` serves: every existing child of every registered
vector, as (metric name, battery label, value) samples. -/
def exposition (ps : PromState) : List (String × String × ℚ) :=
  (ps.registered.map (fun dk =>
    (ps.gauges dk.1 dk.2).map (fun c => (metricName dk.2, c.1, c.2)))).flatten

/-! .. The influx point built on each tick (lines 234-252). -/

/-- Field values of an influx point (`map[string]interface{}`). -/
inductive InfluxValue where
  | num : ℚ → InfluxValue
  | int : Int → InfluxValue
  | str : String → InfluxValue
deriving DecidableEq, Repr

/-- One structured point as handed to `WritePoint`. -/
structure InfluxPoint where
  measurement : String
  tags : List (String × String)
  fields : List (String × InfluxValue)
deriving DecidableEq, Repr

/-- The point `influxdb2.NewPoint("battery", ...)` built for one device
from one reading (lines 235-250). -/
def mkPoint (host batName : String) (info : BatteryInfo) : InfluxPoint :=
  { measurement := "battery"
  , tags := [("host", host), ("battery", batName)]
  , fields :=
      [ ("percentage", .num (percentage info))
      , ("capacity_health", .num (capacityHealth info))
      , ("charging", .num (chargingCode info.status))
      , ("voltage", .num (voltageVolts info))
      , ("energy_wh", .num (energyWh info))
      , ("cycle_count", .int info.cycleCount)
      , ("status", .str info.status) ] }

/-! .. The publish loop (`updateMetrics`, lines 183-277) as a trace of
atomic actions.  Each gauge `Set` is one atomic step (the prometheus
client stores each gauge value with an atomic write), which is the
granularity at which a concurrent scrape can interleave. -/

/-- Two's-complement wrap-around into the signed 64-bit range, as Go's
`int64` arithmetic (and hence `time.Duration` arithmetic) behaves. -/
def wrap64 (n : Int) : Int := (n + 2 ^ 63) % 2 ^ 64 - 2 ^ 63

/-- `time.Second` in nanoseconds. -/
def nsPerSecond : Int := 1000000000

/-- The `interval` computation (lines 184-187), in nanoseconds:
`time.Duration(config.Interval) * time.Second` is a wrapping `int64`
multiplication (the config field itself is a 64-bit `int`, hence the
inner `wrap64`), and the result is replaced by 10 seconds exactly when
that wrapped product is zero. -/
def effIntervalNs (i : Int) : Int :=
  let d := wrap64 (wrap64 i * nsPerSecond)
  if d = 0 then 10 * nsPerSecond else d

/-- Atomic actions of the publish loop. -/
inductive Action where
  | readDev : String → Action
  | logRead : String → Action
  | setG : String → String → String → ℚ → Action
  | writePoint : InfluxPoint → Action
  | flushInflux : Action
  | pushAll : String → Action
  | sleep : Int → Action
deriving DecidableEq, Repr

/-- The six gauge writes for one successful reading (lines 224-230): all
of them address the gauge map of `batteries[0]` (`own`), with the current
device only as the label value. -/
def setGActions (own batName : String) (info : BatteryInfo) : List Action :=
  [ .setG own "percentage" batName (percentage info)
  , .setG own "capacity" batName (capacityHealth info)
  , .setG own "charging" batName (chargingCode info.status)
  , .setG own "voltage" batName (voltageVolts info)
  , .setG own "energy_now" batName (energyWh info)
  , .setG own "cycle_count" batName ((info.cycleCount : ℚ)) ]

/-- Handling of one device inside a tick (lines 197-252): attempt the
read; on failure log and continue; on success write the six gauges (when
a prometheus-style sink is enabled) and emit one influx point (when the
influx sink is enabled). -/
def deviceActions (cfg : Config) (own : String)
    (fs : String → Option (List String)) (batName : String) : List Action :=
  .readDev batName ::
    match readBatteryInfo fs batName with
    | none => [.logRead batName]
    | some info =>
        (if cfg.promEnabled || cfg.pushEnabled then setGActions own batName info else [])
          ++ (if cfg.influxEnabled then [.writePoint (mkPoint cfg.host batName info)] else [])

/-- One full iteration of the `for {}` loop (lines 196-276): every device
in order, then the influx flush, then the pushgateway push of the first
device's registered vectors, then the interval sleep. -/
def tickActions (cfg : Config) (bats : List String)
    (fs : String → Option (List String)) : List Action :=
  (bats.map (deviceActions cfg (bats.headD "") fs)).flatten
    ++ (if cfg.influxEnabled then [.flushInflux] else [])
    ++ (if cfg.pushEnabled then [.pushAll (bats.headD "")] else [])
    ++ [.sleep (effIntervalNs cfg.interval)]

/-- `g["k"].WithLabelValues(batName).Set(v)` on the store. -/
def setGauge (ps : PromState) (own key l : String) (v : ℚ) : PromState :=
  { ps with gauges := fun d k =>
      if d = own ∧ k = key then setChild (ps.gauges d k) l v else ps.gauges d k }

/-- Effect of one action on the gauge store; only gauge writes mutate it. -/
def applyAction (ps : PromState) : Action → PromState
  | .setG own key l v => setGauge ps own key l v
  | _ => ps

/-- Effect of a sequence of actions. -/
def applyActions (acts : List Action) (ps : PromState) : PromState :=
  acts.foldl applyAction ps

/-- The influx points a list of actions delivers to `WritePoint`. -/
def influxPointsOf (acts : List Action) : List InfluxPoint :=
  acts.filterMap (fun a => match a with | .writePoint p => some p | _ => none)

/-- Whether an action is the influx `Flush` call. -/
def isFlush : Action → Bool
  | .flushInflux => true
  | _ => false

/-- How many times a list of actions calls `Flush`. -/
def flushCountOf (acts : List Action) : Nat :=
  (acts.filter isFlush).length

/-- The action trace of the first `n` loop iterations; `fsSeq t` is the
filesystem contents during iteration `t`. -/
def flatTrace (cfg : Config) (bats : List String)
    (fsSeq : Nat → String → Option (List String)) : Nat → List Action
  | 0 => []
  | n + 1 => flatTrace cfg bats fsSeq n ++ tickActions cfg bats (fsSeq n)

/-- Gauge store after `n` complete loop iterations, starting from the
eagerly initialized (but childless) store of `initPrometheusMetrics`. -/
def loopState (cfg : Config) (bats : List String)
    (fsSeq : Nat → String → Option (List String)) (n : Nat) : PromState :=
  applyActions (flatTrace cfg bats fsSeq n) (initPrometheusMetrics bats)

/-- Startup sequence of `main` after config loading (lines 404-414): a
`log.Fatal` when no batteries were found, otherwise the initialized store
handed to the publish loop. -/
def mainStartup (cfg : Config) (entries : Option (List DirEntry))
    (statOk : String → Bool) : Except String (List String × PromState) :=
  let bats := (findBatteries entries statOk).1
  if bats.isEmpty then Except.error "No batteries found"
  else
    Except.ok (bats,
      if cfg.promEnabled || cfg.pushEnabled then initPrometheusMetrics bats
      else { gauges := fun _ _ => [], registered := [] })

/-! .. Concrete fixtures used by witnesses and counterexamples. -/

/-- A pull-sink-only configuration. -/
def cfgProm : Config :=
  { interval := 10, promEnabled := true, promPort := 9273, promPath := "/metrics"
  , pushEnabled := false, pushURL := "", pushJob := ""
  , influxEnabled := false, influxURL := "", influxToken := "", influxOrg := ""
  , influxBucket := "", host := "myhost" }

/-- An influx-only configuration. -/
def cfgInflux : Config :=
  { cfgProm with
    promEnabled := false,
    influxEnabled := true,
    influxURL := "http://localhost:8086",
    influxToken := "tok",
    influxOrg := "org",
    influxBucket := "bucket" }

/-- A well-formed sample uevent file. -/
def sampleLines : List String :=
  [ "POWER_SUPPLY_NAME=BAT0"
  , "POWER_SUPPLY_STATUS=Discharging"
  , "POWER_SUPPLY_PRESENT=1"
  , "POWER_SUPPLY_TECHNOLOGY=Li-ion"
  , "POWER_SUPPLY_CYCLE_COUNT=120"
  , "POWER_SUPPLY_VOLTAGE_NOW=12300000"
  , "POWER_SUPPLY_ENERGY_FULL_DESIGN=60000000"
  , "POWER_SUPPLY_ENERGY_FULL=50000000"
  , "POWER_SUPPLY_ENERGY_NOW=45000000"
  , "POWER_SUPPLY_CAPACITY=80" ]

/-- Filesystem where `BAT0` reads `sampleLines` and any other device's
file fails to open. -/
def fsSample : String → Option (List String) :=
  fun b => if b = "BAT0" then some sampleLines else none

/-- The pull-sink configuration with the interval whose nanosecond
conversion wraps to exactly zero in `int64` (2^55 · 10^9 = 5^9 · 2^64). -/
def cfgWrap : Config := { cfgProm with interval := 2 ^ 55 }

/-- A reading whose design energy is zero. -/
def infoZeroDesign : BatteryInfo :=
  { BatteryInfo.init "BAT0" with energyFull := 50000000, energyDesign := 0 }

/-- A reading with a positive design energy. -/
def infoHealthy : BatteryInfo :=
  { BatteryInfo.init "BAT0" with energyFull := 50000000, energyDesign := 60000000 }

/-! .. Helper lemmas about the gauge store. -/

theorem lookupChild_setChild_self (g : GaugeVec) (l : String) (v : ℚ) :
    lookupChild (setChild g l v) l = some v := by
  induction g with
  | nil => simp [setChild, lookupChild]
  | cons p rest ih =>
    by_cases h : p.1 = l
    · simp [setChild, h, lookupChild]
    · simp [setChild, h, lookupChild, ih]

theorem lookupChild_setChild_ne (g : GaugeVec) (l l' : String) (v : ℚ)
    (h : l' ≠ l) : lookupChild (setChild g l v) l' = lookupChild g l' := by
  have hne : ¬ l = l' := fun e => h e.symm
  induction g with
  | nil => simp [setChild, lookupChild, hne]
  | cons p rest ih =>
    by_cases hp : p.1 = l
    · have hp' : ¬ p.1 = l' := by rw [hp]; exact hne
      simp [setChild, hp, lookupChild, hp', hne]
    · simp [setChild, hp, lookupChild, ih]

theorem lookupChild_mem (g : GaugeVec) (l : String) (v : ℚ)
    (h : lookupChild g l = some v) : (l, v) ∈ g := by
  induction g with
  | nil => simp [lookupChild] at h
  | cons p rest ih =>
    obtain ⟨pl, pv⟩ := p
    by_cases hp : pl = l
    · simp only [lookupChild] at h
      rw [if_pos hp] at h
      obtain rfl := Option.some.inj h
      rw [← hp]
      exact List.mem_cons_self ..
    · simp only [lookupChild] at h
      rw [if_neg hp] at h
      exact List.mem_cons_of_mem _ (ih h)

theorem setGauge_registered (ps : PromState) (own key l : String) (v : ℚ) :
    (setGauge ps own key l v).registered = ps.registered := rfl

theorem setGauge_gauges_eq (ps : PromState) (own key l : String) (v : ℚ) :
    (setGauge ps own key l v).gauges own key = setChild (ps.gauges own key) l v := by
  have h : (setGauge ps own key l v).gauges own key
      = if own = own ∧ key = key then setChild (ps.gauges own key) l v
        else ps.gauges own key := rfl
  rw [h, if_pos ⟨rfl, rfl⟩]

theorem setGauge_gauges_ne (ps : PromState) (own key l : String) (v : ℚ)
    (d k : String) (hc : ¬(d = own ∧ k = key)) :
    (setGauge ps own key l v).gauges d k = ps.gauges d k := by
  simp only [setGauge]
  rw [if_neg hc]

theorem applyAction_registered (ps : PromState) (a : Action) :
    (applyAction ps a).registered = ps.registered := by
  cases a <;> rfl

theorem applyActions_registered (acts : List Action) (ps : PromState) :
    (applyActions acts ps).registered = ps.registered := by
  induction acts generalizing ps with
  | nil => rfl
  | cons a as ih => rw [applyActions, List.foldl_cons, ← applyActions, ih,
      applyAction_registered]

theorem applyActions_nil (ps : PromState) : applyActions [] ps = ps := rfl

theorem applyActions_cons (a : Action) (acts : List Action) (ps : PromState) :
    applyActions (a :: acts) ps = applyActions acts (applyAction ps a) := rfl

theorem applyActions_append (xs ys : List Action) (ps : PromState) :
    applyActions (xs ++ ys) ps = applyActions ys (applyActions xs ps) :=
  List.foldl_append ..

theorem lookupChild_isSome_applyAction (ps : PromState) (a : Action)
    (d k l : String) (h : (lookupChild (ps.gauges d k) l).isSome = true) :
    (lookupChild ((applyAction ps a).gauges d k) l).isSome = true := by
  cases a with
  | setG own key l0 v =>
    show (lookupChild ((setGauge ps own key l0 v).gauges d k) l).isSome = true
    by_cases hc : d = own ∧ k = key
    · rw [show (setGauge ps own key l0 v).gauges d k
          = setChild (ps.gauges d k) l0 v by simp [setGauge, hc]]
      by_cases hl : l = l0
      · rw [hl, lookupChild_setChild_self]; rfl
      · rw [lookupChild_setChild_ne _ _ _ _ hl]; exact h
    · rw [show (setGauge ps own key l0 v).gauges d k = ps.gauges d k by
        simp [setGauge, hc]]
      exact h
  | readDev b => exact h
  | logRead b => exact h
  | writePoint p => exact h
  | flushInflux => exact h
  | pushAll o => exact h
  | sleep t => exact h

theorem lookupChild_isSome_applyActions (acts : List Action) (ps : PromState)
    (d k l : String) (h : (lookupChild (ps.gauges d k) l).isSome = true) :
    (lookupChild ((applyActions acts ps).gauges d k) l).isSome = true := by
  induction acts generalizing ps with
  | nil => exact h
  | cons a as ih =>
    rw [applyActions_cons]
    exact ih _ (lookupChild_isSome_applyAction _ _ _ _ _ h)

theorem applyActions_isSome_of_mem (acts : List Action) (ps : PromState)
    (own key l : String) (v : ℚ) (h : Action.setG own key l v ∈ acts) :
    (lookupChild ((applyActions acts ps).gauges own key) l).isSome = true := by
  induction acts generalizing ps with
  | nil => simp at h
  | cons a as ih =>
    rcases List.mem_cons.mp h with he | hm
    · rw [applyActions_cons]
      apply lookupChild_isSome_applyActions
      rw [← he]
      show (lookupChild ((setGauge ps own key l v).gauges own key) l).isSome = true
      rw [show (setGauge ps own key l v).gauges own key
          = setChild (ps.gauges own key) l v by simp [setGauge],
        lookupChild_setChild_self]
      rfl
    · rw [applyActions_cons]; exact ih _ hm

theorem lookupChild_applyActions_of_no_write (acts : List Action)
    (ps : PromState) (lbl : String)
    (h : ∀ own key v, Action.setG own key lbl v ∉ acts) (d k : String) :
    lookupChild ((applyActions acts ps).gauges d k) lbl
      = lookupChild (ps.gauges d k) lbl := by
  induction acts generalizing ps with
  | nil => rfl
  | cons a as ih =>
    rw [applyActions_cons,
      ih _ (fun own key v hm => h own key v (List.mem_cons_of_mem _ hm))]
    cases a with
    | setG own key l0 v =>
      have hne : lbl ≠ l0 := by
        intro e
        exact h own key v (e ▸ List.mem_cons_self ..)
      show lookupChild ((setGauge ps own key l0 v).gauges d k) lbl = _
      by_cases hc : d = own ∧ k = key
      · rw [show (setGauge ps own key l0 v).gauges d k
            = setChild (ps.gauges d k) l0 v by simp [setGauge, hc],
          lookupChild_setChild_ne _ _ _ _ hne]
      · rw [show (setGauge ps own key l0 v).gauges d k = ps.gauges d k by
          simp [setGauge, hc]]
    | readDev b => rfl
    | logRead b => rfl
    | writePoint p => rfl
    | flushInflux => rfl
    | pushAll o => rfl
    | sleep t => rfl

/-! .. Helper lemmas for `strconv.Atoi` and the line parser. -/

/-- The keys whose values go through `strconv.Atoi`. -/
def numericKeys : List String :=
  [ "POWER_SUPPLY_CYCLE_COUNT", "POWER_SUPPLY_VOLTAGE_NOW"
  , "POWER_SUPPLY_ENERGY_FULL_DESIGN", "POWER_SUPPLY_ENERGY_FULL"
  , "POWER_SUPPLY_ENERGY_NOW", "POWER_SUPPLY_CAPACITY" ]

theorem mk_data (s : String) : (⟨s.data⟩ : String) = s := by cases s; rfl

theorem splitAtFirstEq_append (k v : List Char) (hk : ∀ c ∈ k, c ≠ '=') :
    splitAtFirstEq (k ++ '=' :: v) = some (k, v) := by
  induction k with
  | nil => simp [splitAtFirstEq]
  | cons c cs ih =>
    have hc : c ≠ '=' := hk c (List.mem_cons_self ..)
    simp [splitAtFirstEq, hc, ih (fun c hc' => hk c (List.mem_cons_of_mem _ hc'))]

theorem splitAtFirstEq_kv (k v : String) (hk : ∀ c ∈ k.data, c ≠ '=') :
    splitAtFirstEq (k ++ "=" ++ v).data = some (k.data, v.data) := by
  have h1 : (k ++ "=" ++ v).data = k.data ++ '=' :: v.data := by
    rw [String.data_append, String.data_append,
      show ("=" : String).data = ['='] from rfl, List.append_assoc]
    rfl
  rw [h1, splitAtFirstEq_append _ _ hk]

theorem atoi_of_invalid (v : String) (hv : validInt v.data = false) :
    atoi v = 0 := by simp [atoi, hv]

theorem processLine_invalid (info : BatteryInfo) (k v : String)
    (hk : k ∈ numericKeys) (hv : validInt v.data = false) :
    processLine info (k ++ "=" ++ v) = processLine info (k ++ "=" ++ "0") := by
  have hv0 : atoi v = 0 := atoi_of_invalid v hv
  have h0 : atoi "0" = 0 := by decide
  have hknoeq : ∀ c ∈ k.data, c ≠ '=' := by fin_cases hk <;> decide
  have hs1 : splitAtFirstEq (k ++ "=" ++ v).data = some (k.data, v.data) :=
    splitAtFirstEq_kv k v hknoeq
  have hs2 : splitAtFirstEq (k ++ "=" ++ "0").data = some (k.data, "0".data) :=
    splitAtFirstEq_kv k "0" hknoeq
  simp only [processLine, hs1, hs2, mk_data]
  fin_cases hk <;> simp [hv0, h0]

/-! .. Shape lemmas about the loop's action trace. -/

theorem mem_deviceActions_setG {cfg : Config} {o : String}
    {fs : String → Option (List String)} {b own key l : String} {v : ℚ}
    (h : Action.setG own key l v ∈ deviceActions cfg o fs b) :
    own = o ∧ l = b ∧ (readBatteryInfo fs b).isSome = true := by
  simp only [deviceActions] at h
  rcases List.mem_cons.mp h with he | h'
  · simp at he
  · split at h'
    · simp at h'
    · rename_i info hr
      rw [hr]
      rcases List.mem_append.mp h' with h1 | h1
      · split at h1
        · simp only [setGActions, List.mem_cons, List.not_mem_nil, or_false] at h1
          rcases h1 with h1 | h1 | h1 | h1 | h1 | h1 <;>
            · obtain ⟨ho, -, hl, -⟩ := Action.setG.inj h1
              exact ⟨ho, hl, rfl⟩
        · simp at h1
      · split at h1 <;> simp at h1

theorem mem_tickActions_setG {cfg : Config} {bats : List String}
    {fs : String → Option (List String)} {own key l : String} {v : ℚ}
    (h : Action.setG own key l v ∈ tickActions cfg bats fs) :
    own = bats.headD "" ∧ l ∈ bats ∧ (readBatteryInfo fs l).isSome = true := by
  simp only [tickActions] at h
  rcases List.mem_append.mp h with h | h
  · rcases List.mem_append.mp h with h | h
    · rcases List.mem_append.mp h with h | h
      · obtain ⟨la, hla, hmem⟩ := List.mem_flatten.mp h
        obtain ⟨b, hb, rfl⟩ := List.mem_map.mp hla
        obtain ⟨ho, hl, hs⟩ := mem_deviceActions_setG hmem
        exact ⟨ho, hl ▸ hb, hl ▸ hs⟩
      · split at h <;> simp at h
    · split at h <;> simp at h
  · simp at h

theorem mem_tickActions_of_mem_device {cfg : Config} {bats : List String}
    {fs : String → Option (List String)} {b : String} {a : Action}
    (hb : b ∈ bats) (ha : a ∈ deviceActions cfg (bats.headD "") fs b) :
    a ∈ tickActions cfg bats fs :=
  List.mem_append_left _ (List.mem_append_left _ (List.mem_append_left _
    (List.mem_flatten.mpr ⟨_, List.mem_map_of_mem _ hb, ha⟩)))

theorem deviceActions_no_sleep (cfg : Config) (o : String)
    (fs : String → Option (List String)) (b : String) (t : Int) :
    Action.sleep t ∉ deviceActions cfg o fs b := by
  intro h
  simp only [deviceActions] at h
  rcases List.mem_cons.mp h with he | h'
  · simp at he
  · split at h'
    · simp at h'
    · rcases List.mem_append.mp h' with h1 | h1 <;>
        split at h1 <;> simp [setGActions] at h1

theorem deviceActions_no_push (cfg : Config) (o : String)
    (fs : String → Option (List String)) (b : String) (own : String) :
    Action.pushAll own ∉ deviceActions cfg o fs b := by
  intro h
  simp only [deviceActions] at h
  rcases List.mem_cons.mp h with he | h'
  · simp at he
  · split at h'
    · simp at h'
    · rcases List.mem_append.mp h' with h1 | h1 <;>
        split at h1 <;> simp [setGActions] at h1

theorem mem_tickActions_pushAll {cfg : Config} {bats : List String}
    {fs : String → Option (List String)} {own : String}
    (h : Action.pushAll own ∈ tickActions cfg bats fs) : own = bats.headD "" := by
  simp only [tickActions] at h
  rcases List.mem_append.mp h with h | h
  · rcases List.mem_append.mp h with h | h
    · rcases List.mem_append.mp h with h | h
      · obtain ⟨la, hla, hmem⟩ := List.mem_flatten.mp h
        obtain ⟨b, hb, rfl⟩ := List.mem_map.mp hla
        exact absurd hmem (deviceActions_no_push _ _ _ _ _)
      · split at h <;> simp at h
    · split at h
      · simp only [List.mem_singleton] at h
        exact Action.pushAll.inj h
      · simp at h
  · simp at h

theorem applyActions_gauges_other (acts : List Action) (ps : PromState)
    (d : String) (ho : ∀ own key l v, Action.setG own key l v ∈ acts → d ≠ own)
    (hinit : ∀ k, ps.gauges d k = []) :
    ∀ k, (applyActions acts ps).gauges d k = [] := by
  induction acts generalizing ps with
  | nil => exact hinit
  | cons a as ih =>
    rw [applyActions_cons]
    refine ih _ (fun own key l v hm => ho own key l v (List.mem_cons_of_mem _ hm)) ?_
    intro k
    cases a with
    | setG own key l0 v =>
      have hd : d ≠ own := ho own key l0 v (List.mem_cons_self ..)
      show (setGauge ps own key l0 v).gauges d k = []
      rw [setGauge_gauges_ne _ _ _ _ _ _ _ (fun hc => hd hc.1)]
      exact hinit k
    | readDev b => exact hinit k
    | logRead b => exact hinit k
    | writePoint p => exact hinit k
    | flushInflux => exact hinit k
    | pushAll o => exact hinit k
    | sleep t => exact hinit k

theorem lookupChild_applyActions_cases (acts : List Action) (ps : PromState)
    (d k l : String) :
    lookupChild ((applyActions acts ps).gauges d k) l
        = lookupChild (ps.gauges d k) l
      ∨ ∃ v, lookupChild ((applyActions acts ps).gauges d k) l = some v
          ∧ Action.setG d k l v ∈ acts := by
  induction acts generalizing ps with
  | nil => left; rfl
  | cons a as ih =>
    rw [applyActions_cons]
    rcases ih (applyAction ps a) with h | ⟨v, hv, hm⟩
    · rw [h]
      cases a with
      | setG own key l0 v0 =>
        by_cases hc : d = own ∧ k = key
        · have hg : (applyAction ps (Action.setG own key l0 v0)).gauges d k
              = setChild (ps.gauges d k) l0 v0 := by
            simp [applyAction, setGauge, hc]
          by_cases hl : l = l0
          · right
            obtain ⟨rfl, rfl⟩ := hc
            subst hl
            exact ⟨v0, by rw [hg, lookupChild_setChild_self],
              List.mem_cons_self ..⟩
          · left
            rw [hg, lookupChild_setChild_ne _ _ _ _ hl]
        · left
          rw [show (applyAction ps (Action.setG own key l0 v0)).gauges d k
              = ps.gauges d k by simp [applyAction, setGauge, hc]]
      | readDev b => left; rfl
      | logRead b => left; rfl
      | writePoint p => left; rfl
      | flushInflux => left; rfl
      | pushAll o => left; rfl
      | sleep t => left; rfl
    · right
      exact ⟨v, hv, List.mem_cons_of_mem _ hm⟩

theorem mem_exposition (ps : PromState) (dk : String × String) (l : String)
    (v : ℚ) (hr : dk ∈ ps.registered) (hc : (l, v) ∈ ps.gauges dk.1 dk.2) :
    (metricName dk.2, l, v) ∈ exposition ps := by
  apply List.mem_flatten.mpr
  refine ⟨(ps.gauges dk.1 dk.2).map (fun c => (metricName dk.2, c.1, c.2)),
    List.mem_map_of_mem _ hr, ?_⟩
  exact List.mem_map.mpr ⟨(l, v), hc, rfl⟩

theorem setG_mem_tickActions_of_success (cfg : Config) (bats : List String)
    (fs : String → Option (List String)) (d : String) (info : BatteryInfo)
    (k : String) (he : cfg.promEnabled = true ∨ cfg.pushEnabled = true)
    (hd : d ∈ bats) (hr : readBatteryInfo fs d = some info) (hk : k ∈ gaugeKeys) :
    ∃ v, Action.setG (bats.headD "") k d v ∈ tickActions cfg bats fs := by
  have hen : (cfg.promEnabled || cfg.pushEnabled) = true := by
    rcases he with h | h <;> simp [h]
  fin_cases hk
  · exact ⟨percentage info, mem_tickActions_of_mem_device hd
      (by simp [deviceActions, hr, hen, setGActions])⟩
  · exact ⟨capacityHealth info, mem_tickActions_of_mem_device hd
      (by simp [deviceActions, hr, hen, setGActions])⟩
  · exact ⟨chargingCode info.status, mem_tickActions_of_mem_device hd
      (by simp [deviceActions, hr, hen, setGActions])⟩
  · exact ⟨voltageVolts info, mem_tickActions_of_mem_device hd
      (by simp [deviceActions, hr, hen, setGActions])⟩
  · exact ⟨energyWh info, mem_tickActions_of_mem_device hd
      (by simp [deviceActions, hr, hen, setGActions])⟩
  · exact ⟨(info.cycleCount : ℚ), mem_tickActions_of_mem_device hd
      (by simp [deviceActions, hr, hen, setGActions])⟩

theorem flatTrace_setG_owner (cfg : Config) (bats : List String)
    (fsSeq : Nat → String → Option (List String)) (n : Nat) :
    ∀ own key l v, Action.setG own key l v ∈ flatTrace cfg bats fsSeq n →
      own = bats.headD "" := by
  induction n with
  | zero => intro own key l v h; simp [flatTrace] at h
  | succ nn ih =>
    intro own key l v h
    rcases List.mem_append.mp h with h | h
    · exact ih own key l v h
    · exact (mem_tickActions_setG h).1

theorem flatTrace_pushAll_owner (cfg : Config) (bats : List String)
    (fsSeq : Nat → String → Option (List String)) (n : Nat) :
    ∀ own, Action.pushAll own ∈ flatTrace cfg bats fsSeq n →
      own = bats.headD "" := by
  induction n with
  | zero => intro own h; simp [flatTrace] at h
  | succ nn ih =>
    intro own h
    rcases List.mem_append.mp h with h | h
    · exact ih own h
    · exact mem_tickActions_pushAll h

theorem wrap64_eq_self (n : Int) (h1 : -(2 ^ 63) ≤ n) (h2 : n < 2 ^ 63) :
    wrap64 n = n := by
  unfold wrap64
  omega

theorem effIntervalNs_of_no_wrap (i : Int) (h0 : i ≠ 0)
    (h1 : -(2 ^ 63) ≤ i * nsPerSecond) (h2 : i * nsPerSecond < 2 ^ 63) :
    effIntervalNs i = i * nsPerSecond := by
  have hi1 : -(2 ^ 63) ≤ i := by unfold nsPerSecond at h1 h2; omega
  have hi2 : i < 2 ^ 63 := by unfold nsPerSecond at h1 h2; omega
  have hw : wrap64 (wrap64 i * nsPerSecond) = i * nsPerSecond := by
    rw [wrap64_eq_self i hi1 hi2]
    exact wrap64_eq_self _ h1 h2
  have hne : i * nsPerSecond ≠ 0 := by unfold nsPerSecond; omega
  simp only [effIntervalNs]
  rw [hw, if_neg hne]

theorem influxPointsOf_deviceActions (cfg : Config) (o : String)
    (fs : String → Option (List String)) (b : String) :
    influxPointsOf (deviceActions cfg o fs b)
      = if cfg.influxEnabled then
          ((readBatteryInfo fs b).map (mkPoint cfg.host b)).toList
        else [] := by
  cases hr : readBatteryInfo fs b with
  | none =>
    cases hi : cfg.influxEnabled <;>
      simp [deviceActions, influxPointsOf, hr, hi]
  | some info =>
    cases hi : cfg.influxEnabled <;>
      by_cases hp : (cfg.promEnabled || cfg.pushEnabled) = true <;>
        simp [deviceActions, influxPointsOf, hr, hi, hp, setGActions]

theorem influxPointsOf_tickActions (cfg : Config) (bats : List String)
    (fs : String → Option (List String)) (hi : cfg.influxEnabled = true) :
    influxPointsOf (tickActions cfg bats fs)
      = bats.filterMap (fun b => (readBatteryInfo fs b).map (mkPoint cfg.host b)) := by
  have hflat : ∀ bs : List String,
      influxPointsOf ((bs.map (deviceActions cfg (bats.headD "") fs)).flatten)
        = bs.filterMap (fun b => (readBatteryInfo fs b).map (mkPoint cfg.host b)) := by
    intro bs
    induction bs with
    | nil => rfl
    | cons b rest ih =>
      rw [List.map_cons, List.flatten_cons,
        show influxPointsOf (deviceActions cfg (bats.headD "") fs b
            ++ (rest.map (deviceActions cfg (bats.headD "") fs)).flatten)
          = influxPointsOf (deviceActions cfg (bats.headD "") fs b)
            ++ influxPointsOf ((rest.map (deviceActions cfg (bats.headD "") fs)).flatten)
          from List.filterMap_append .., ih,
        influxPointsOf_deviceActions cfg (bats.headD "") fs b, if_pos hi]
      cases hr : readBatteryInfo fs b <;> simp [List.filterMap_cons, hr]
  simp only [tickActions,
    show ∀ xs ys : List Action, influxPointsOf (xs ++ ys)
        = influxPointsOf xs ++ influxPointsOf ys
      from fun xs ys => List.filterMap_append .., hflat bats]
  rw [if_pos hi]
  cases hpu : cfg.pushEnabled <;> simp [influxPointsOf]

theorem flushCountOf_tickActions (cfg : Config) (bats : List String)
    (fs : String → Option (List String)) (hi : cfg.influxEnabled = true) :
    flushCountOf (tickActions cfg bats fs) = 1 := by
  have hdev : ∀ bs : List String,
      flushCountOf ((bs.map (deviceActions cfg (bats.headD "") fs)).flatten) = 0 := by
    intro bs
    induction bs with
    | nil => rfl
    | cons b rest ih =>
      rw [List.map_cons, List.flatten_cons]
      simp only [flushCountOf, List.filter_append, List.length_append]
      rw [show ((rest.map (deviceActions cfg (bats.headD "") fs)).flatten.filter
          isFlush).length = 0 from ih]
      cases hr : readBatteryInfo fs b <;>
        by_cases hp : (cfg.promEnabled || cfg.pushEnabled) = true <;>
          cases hif : cfg.influxEnabled <;>
            simp [deviceActions, hr, hp, hif, setGActions, isFlush]
  simp only [tickActions, flushCountOf, List.filter_append, List.length_append]
  rw [show ((bats.map (deviceActions cfg (bats.headD "") fs)).flatten.filter
      isFlush).length = 0 from hdev bats, if_pos hi]
  cases hpu : cfg.pushEnabled <;> simp [isFlush]

/-! .. Claim theorems. -/

/-- C3: the derived charging-state code is a total exact-match function of
the raw status string: "Charging" maps to 1, "Full" to 2, "Not charging"
to 3, and every other string (including "Discharging", the empty string
and any unrecognized value) maps to 0. -/
theorem c3_charging_state_mapping :
    chargingCode "Charging" = 1 ∧ chargingCode "Full" = 2 ∧
      chargingCode "Not charging" = 3 ∧
      ∀ s : String, s ≠ "Charging" → s ≠ "Full" → s ≠ "Not charging" →
        chargingCode s = 0 := by
  refine ⟨by decide, by decide, by decide, ?_⟩
  intro s h1 h2 h3
  simp [chargingCode, h1, h2, h3]

/-- Witness for C3 at the concrete fallback inputs from the spec. -/
theorem c3_charging_state_mapping_witness :
    chargingCode "Discharging" = 0 ∧ chargingCode "" = 0 ∧
      chargingCode "garbage" = 0 :=
  ⟨c3_charging_state_mapping.2.2.2 "Discharging" (by decide) (by decide) (by decide),
   c3_charging_state_mapping.2.2.2 "" (by decide) (by decide) (by decide),
   c3_charging_state_mapping.2.2.2 "garbage" (by decide) (by decide) (by decide)⟩

/-- C4: derived capacity health is 100 when the design energy is zero or
negative (for any energy-full value), equals
`100 * energy_full / energy_full_design` when the design energy is
positive, and is not clamped above, so it can exceed 100. -/
theorem c4_capacity_health :
    (∀ info : BatteryInfo, info.energyDesign ≤ 0 → capacityHealth info = 100) ∧
      (∀ info : BatteryInfo, 0 < info.energyDesign →
        capacityHealth info
          = 100 * (info.energyFull : ℚ) / (info.energyDesign : ℚ)) ∧
      (∃ info : BatteryInfo, 100 < capacityHealth info) := by
  refine ⟨?_, ?_, ?_⟩
  · intro info h
    simp [capacityHealth, not_lt.mpr h]
  · intro info h
    simp [capacityHealth, h]
  · refine ⟨{ BatteryInfo.init "BAT0" with energyFull := 2, energyDesign := 1 }, ?_⟩
    norm_num [capacityHealth, BatteryInfo.init]

/-- Witness for C4 at the concrete readings from the spec (design 0 with
energy-full 50000000, and 50000000 of 60000000). -/
theorem c4_capacity_health_witness :
    capacityHealth infoZeroDesign = 100 ∧
      capacityHealth infoHealthy
        = 100 * (infoHealthy.energyFull : ℚ) / (infoHealthy.energyDesign : ℚ) :=
  ⟨c4_capacity_health.1 infoZeroDesign (by decide),
   c4_capacity_health.2.1 infoHealthy (by decide)⟩

/-- C5: parsing never fails the whole read; a numeric attribute line whose
value is not a syntactically valid integer behaves exactly like the same
attribute with value 0: that field alone defaults to zero and every other
line of the file is processed unchanged. -/
theorem c5_field_level_defaulting (k v : String) (hk : k ∈ numericKeys)
    (hv : validInt v.data = false) (name : String) (pre post : List String) :
    parseUevent name (pre ++ (k ++ "=" ++ v) :: post)
      = parseUevent name (pre ++ (k ++ "=" ++ "0") :: post) := by
  unfold parseUevent
  rw [List.foldl_append, List.foldl_append]
  simp only [List.foldl_cons]
  rw [processLine_invalid _ k v hk hv]

/-- Witness for C5: a file whose only malformed numeric line is
`POWER_SUPPLY_CYCLE_COUNT=abc` parses like the same file with cycle count
0 (so every other field is still populated). -/
theorem c5_field_level_defaulting_witness :
    ("POWER_SUPPLY_CYCLE_COUNT" ∈ numericKeys) ∧
      validInt "abc".data = false ∧
      parseUevent "BAT0"
          (["POWER_SUPPLY_STATUS=Discharging", "POWER_SUPPLY_CAPACITY=80"]
            ++ ("POWER_SUPPLY_CYCLE_COUNT" ++ "=" ++ "abc")
              :: ["POWER_SUPPLY_VOLTAGE_NOW=12300000"])
        = parseUevent "BAT0"
            (["POWER_SUPPLY_STATUS=Discharging", "POWER_SUPPLY_CAPACITY=80"]
              ++ ("POWER_SUPPLY_CYCLE_COUNT" ++ "=" ++ "0")
                :: ["POWER_SUPPLY_VOLTAGE_NOW=12300000"]) :=
  ⟨by decide, by decide,
   c5_field_level_defaulting "POWER_SUPPLY_CYCLE_COUNT" "abc" (by decide)
     (by decide) "BAT0"
     ["POWER_SUPPLY_STATUS=Discharging", "POWER_SUPPLY_CAPACITY=80"]
     ["POWER_SUPPLY_VOLTAGE_NOW=12300000"]⟩

/-- C6: the enumerator returns an empty list (not an error) and logs when
the power-supply namespace is unreadable, and whenever the enumerator's
result is empty, startup terminates with a fatal error instead of
reaching the publish loop. -/
theorem c6_empty_enumeration_fatal :
    (∀ statOk : String → Bool, (findBatteries none statOk).1 = [] ∧
        "Error reading power_supply" ∈ (findBatteries none statOk).2) ∧
      (∀ (cfg : Config) (entries : Option (List DirEntry))
          (statOk : String → Bool),
        (findBatteries entries statOk).1 = [] →
        mainStartup cfg entries statOk = Except.error "No batteries found") := by
  refine ⟨fun statOk => ⟨rfl, by simp [findBatteries]⟩, ?_⟩
  intro cfg entries statOk h
  simp [mainStartup, h]

/-- Witness for C6 at an unreadable namespace. -/
theorem c6_empty_enumeration_fatal_witness :
    (findBatteries none (fun _ => true)).1 = [] ∧
      mainStartup cfgProm none (fun _ => true)
        = Except.error "No batteries found" :=
  ⟨(c6_empty_enumeration_fatal.1 (fun _ => true)).1,
   c6_empty_enumeration_fatal.2 cfgProm none (fun _ => true) (by decide)⟩

/-- C1, counterexample: the claim that all six gauge series for every
enumerated device are exposed before the publish loop's first tick fails
at the concrete startup state with one device `BAT0` and the pull sink
enabled: right after `initPrometheusMetrics`, before any tick, the
exposition contains no series at all, because a `GaugeVec` child is only
created by its first `WithLabelValues(...).Set(...)` call during a tick. -/
theorem c1_eager_exposure_counterexample :
    ¬ ∀ k ∈ gaugeKeys, ∃ v,
        (metricName k, "BAT0", v) ∈ exposition (initPrometheusMetrics ["BAT0"]) := by
  intro h
  obtain ⟨v, hv⟩ := h "percentage" (by decide)
  have he : exposition (initPrometheusMetrics ["BAT0"]) = [] := rfl
  rw [he] at hv
  exact List.not_mem_nil _ hv

/-- C1, amended: the gauge vectors are created (and the first device's six
vectors registered) before the publish loop starts, but each per-device
series is created only by its first write during a tick: after any tick
in which a device's attribute file was read successfully, all six series
for that device are present in the exposition and remain present at every
later time (later failed reads leave stale values, never remove them). -/
theorem c1_eager_init_amended (cfg : Config) (b0 : String) (rest : List String)
    (fsSeq : Nat → String → Option (List String)) (n m : Nat) (d : String)
    (info : BatteryInfo)
    (he : cfg.promEnabled = true ∨ cfg.pushEnabled = true)
    (hd : d ∈ b0 :: rest) (hr : readBatteryInfo (fsSeq n) d = some info)
    (hm : n < m) :
    ∀ k ∈ gaugeKeys, ∃ v,
      (metricName k, d, v) ∈ exposition (loopState cfg (b0 :: rest) fsSeq m) := by
  intro k hk
  have hsome : (lookupChild
      ((loopState cfg (b0 :: rest) fsSeq (n + 1)).gauges b0 k) d).isSome = true := by
    obtain ⟨v, hv⟩ :=
      setG_mem_tickActions_of_success cfg (b0 :: rest) (fsSeq n) d info k he hd hr hk
    rw [show ((b0 :: rest).headD "") = b0 from rfl] at hv
    show (lookupChild ((applyActions (flatTrace cfg (b0 :: rest) fsSeq (n + 1))
        (initPrometheusMetrics (b0 :: rest))).gauges b0 k) d).isSome = true
    rw [show flatTrace cfg (b0 :: rest) fsSeq (n + 1)
        = flatTrace cfg (b0 :: rest) fsSeq n
          ++ tickActions cfg (b0 :: rest) (fsSeq n) from rfl,
      applyActions_append]
    exact applyActions_isSome_of_mem _ _ _ _ _ _ hv
  have hmono : ∀ j, n + 1 ≤ j →
      (lookupChild ((loopState cfg (b0 :: rest) fsSeq j).gauges b0 k) d).isSome
        = true := by
    intro j hj
    induction j with
    | zero => omega
    | succ jj ihj =>
      rcases Nat.lt_or_ge (n + 1) (jj + 1) with hlt | hge
      · have hstep : loopState cfg (b0 :: rest) fsSeq (jj + 1)
            = applyActions (tickActions cfg (b0 :: rest) (fsSeq jj))
                (loopState cfg (b0 :: rest) fsSeq jj) := by
          show applyActions (flatTrace cfg (b0 :: rest) fsSeq jj
              ++ tickActions cfg (b0 :: rest) (fsSeq jj)) _ = _
          rw [applyActions_append]
          rfl
        rw [hstep]
        exact lookupChild_isSome_applyActions _ _ _ _ _ (ihj (by omega))
      · have hjn : jj + 1 = n + 1 := by omega
        rw [hjn]
        exact hsome
  obtain ⟨v, hv⟩ := Option.isSome_iff_exists.mp (hmono m hm)
  refine ⟨v, ?_⟩
  have hreg : (b0, k) ∈ (loopState cfg (b0 :: rest) fsSeq m).registered := by
    rw [loopState, applyActions_registered]
    exact List.mem_map.mpr ⟨k, hk, rfl⟩
  exact mem_exposition _ (b0, k) d v hreg (lookupChild_mem _ _ _ hv)

/-- Witness for the amended C1 at a concrete one-device run: after the
first tick, the percentage series of `BAT0` is exposed. -/
theorem c1_eager_init_amended_witness :
    (cfgProm.promEnabled = true ∨ cfgProm.pushEnabled = true) ∧
      "BAT0" ∈ ["BAT0"] ∧
      readBatteryInfo fsSample "BAT0" = some (parseUevent "BAT0" sampleLines) ∧
      (0 : Nat) < 1 ∧
      ∃ v, (metricName "percentage", "BAT0", v)
          ∈ exposition (loopState cfgProm ["BAT0"] (fun _ => fsSample) 1) :=
  ⟨Or.inl rfl, by decide, rfl, by decide,
    c1_eager_init_amended cfgProm "BAT0" [] (fun _ => fsSample) 0 1 "BAT0"
      (parseUevent "BAT0" sampleLines) (Or.inl rfl) (by decide) rfl
      (by decide) "percentage" (by decide)⟩

/-- C2: on any tick, a device whose attribute file fails to open is
logged and suffers no gauge writes: every (gauge, key, label-d) value in
the store is identical before and after the whole tick, so the device's
series are neither zeroed nor removed, only left stale. -/
theorem c2_failed_read_preserves_store (cfg : Config) (bats : List String)
    (fs : String → Option (List String)) (ps : PromState) (d : String)
    (hd : d ∈ bats) (hfail : readBatteryInfo fs d = none) :
    Action.logRead d ∈ tickActions cfg bats fs ∧
      ∀ dev k,
        lookupChild ((applyActions (tickActions cfg bats fs) ps).gauges dev k) d
          = lookupChild (ps.gauges dev k) d := by
  constructor
  · exact mem_tickActions_of_mem_device hd (by simp [deviceActions, hfail])
  · intro dev k
    apply lookupChild_applyActions_of_no_write
    intro own key v hmem
    obtain ⟨-, -, hs⟩ := mem_tickActions_setG hmem
    rw [hfail] at hs
    exact absurd hs (by simp)

/-- Witness for C2: with `BAT1`'s file unreadable on the tick, its
percentage series value is untouched by the whole tick. -/
theorem c2_failed_read_preserves_store_witness :
    Action.logRead "BAT1" ∈ tickActions cfgProm ["BAT0", "BAT1"] fsSample ∧
      lookupChild ((applyActions (tickActions cfgProm ["BAT0", "BAT1"] fsSample)
          (initPrometheusMetrics ["BAT0", "BAT1"])).gauges "BAT0" "percentage") "BAT1"
        = lookupChild ((initPrometheusMetrics ["BAT0", "BAT1"]).gauges
            "BAT0" "percentage") "BAT1" :=
  ⟨(c2_failed_read_preserves_store cfgProm ["BAT0", "BAT1"] fsSample
      (initPrometheusMetrics ["BAT0", "BAT1"]) "BAT1" (by decide) rfl).1,
    (c2_failed_read_preserves_store cfgProm ["BAT0", "BAT1"] fsSample
      (initPrometheusMetrics ["BAT0", "BAT1"]) "BAT1" (by decide) rfl).2
      "BAT0" "percentage"⟩

/-- C7, counterexample: the claim that the loop thereafter waits the
configured interval (defaulting only when it is unset or zero) fails at
the configured interval 2^55 seconds: its nanosecond duration
`time.Duration(2^55) * time.Second` wraps to exactly zero in `int64`
(2^55 · 10^9 = 5^9 · 2^64), so the tick's trailing sleep is the
10-second default and no sleep of the configured interval occurs. -/
theorem c7_wrapped_interval_counterexample :
    cfgWrap.interval ≠ 0 ∧
      Action.sleep (10 * nsPerSecond)
          ∈ tickActions cfgWrap ["BAT0"] (fun _ => none) ∧
      Action.sleep (cfgWrap.interval * nsPerSecond)
          ∉ tickActions cfgWrap ["BAT0"] (fun _ => none) :=
  ⟨by decide, by decide, by decide⟩

/-- C7, amended: every loop iteration reads every device and only then
sleeps (the sleep is the last action and occurs nowhere earlier, so the
first tick's samples happen before any waiting); the slept duration is
the configured interval converted to nanoseconds in wrapping 64-bit
arithmetic, with 10 seconds substituted exactly when that duration is
zero — in particular when the interval is unset or zero, but also when
the conversion wraps to zero — so for any nonzero configured interval
whose nanosecond value fits in `int64` the loop waits exactly the
configured interval; and the trace is total — the loop never ends. -/
theorem c7_loop_timing_amended (cfg : Config) (bats : List String)
    (fsSeq : Nat → String → Option (List String)) :
    (∀ n : Nat, ∃ pre : List Action,
        tickActions cfg bats (fsSeq n)
            = pre ++ [Action.sleep (effIntervalNs cfg.interval)]
          ∧ (∀ t, Action.sleep t ∉ pre)
          ∧ ∀ b ∈ bats, Action.readDev b ∈ pre)
      ∧ effIntervalNs 0 = 10 * nsPerSecond
      ∧ (∀ i : Int, i ≠ 0 → -(2 ^ 63) ≤ i * nsPerSecond →
          i * nsPerSecond < 2 ^ 63 → effIntervalNs i = i * nsPerSecond)
      ∧ (∀ n : Nat, tickActions cfg bats (fsSeq n) ≠ []) := by
  have hpre : ∀ n : Nat, tickActions cfg bats (fsSeq n)
      = ((bats.map (deviceActions cfg (bats.headD "") (fsSeq n))).flatten
          ++ (if cfg.influxEnabled then [Action.flushInflux] else [])
          ++ (if cfg.pushEnabled then [Action.pushAll (bats.headD "")] else []))
        ++ [Action.sleep (effIntervalNs cfg.interval)] := fun n => rfl
  refine ⟨fun n => ⟨_, hpre n, ?_, ?_⟩, by decide, effIntervalNs_of_no_wrap,
    fun n => ?_⟩
  · intro t hmem
    rcases List.mem_append.mp hmem with h | h
    · rcases List.mem_append.mp h with h | h
      · obtain ⟨la, hla, hm⟩ := List.mem_flatten.mp h
        obtain ⟨b, hb, rfl⟩ := List.mem_map.mp hla
        exact absurd hm (deviceActions_no_sleep _ _ _ _ _)
      · split at h <;> simp at h
    · split at h <;> simp at h
  · intro b hb
    exact List.mem_append_left _ (List.mem_append_left _
      (List.mem_flatten.mpr ⟨_, List.mem_map_of_mem _ hb,
        List.mem_cons_self ..⟩))
  · rw [hpre n]
    simp

/-- Witness for the amended C7: the defaulted interval, a non-wrapping
30-second interval waited exactly, and a nonempty first iteration at a
concrete configuration. -/
theorem c7_loop_timing_amended_witness :
    effIntervalNs 0 = 10 * nsPerSecond ∧
      effIntervalNs 30 = 30 * nsPerSecond ∧
      tickActions cfgProm ["BAT0"] ((fun _ => fsSample) 0) ≠ [] :=
  ⟨(c7_loop_timing_amended cfgProm ["BAT0"] (fun _ => fsSample)).2.1,
    (c7_loop_timing_amended cfgProm ["BAT0"] (fun _ => fsSample)).2.2.1 30
      (by norm_num) (by norm_num [nsPerSecond]) (by norm_num [nsPerSecond]),
    (c7_loop_timing_amended cfgProm ["BAT0"] (fun _ => fsSample)).2.2.2 0⟩

/-- C8, counterexample: with the influx sink enabled, a tick on which the
single enumerated device's attribute file fails to open delivers zero
points, not one point per enumerated device as the claim states. -/
theorem c8_point_per_device_counterexample :
    cfgInflux.influxEnabled = true ∧
      (influxPointsOf (tickActions cfgInflux ["BAT0"] (fun _ => none))).length
        ≠ ["BAT0"].length :=
  ⟨rfl, by decide⟩

/-- C8, amended: when the influx sink is enabled, each tick delivers
exactly one structured point per enumerated device whose attribute file
was read successfully on that tick (in enumeration order); each point is
tagged with the host and the device identifier and carries all six
derived fields plus the raw status string; and the write buffer is
flushed exactly once per tick. -/
theorem c8_influx_points_amended (cfg : Config) (bats : List String)
    (fs : String → Option (List String)) (hi : cfg.influxEnabled = true) :
    influxPointsOf (tickActions cfg bats fs)
        = bats.filterMap (fun b =>
            (readBatteryInfo fs b).map (mkPoint cfg.host b))
      ∧ (∀ p ∈ influxPointsOf (tickActions cfg bats fs), ∃ b info,
          b ∈ bats ∧ readBatteryInfo fs b = some info
            ∧ p.tags = [("host", cfg.host), ("battery", b)]
            ∧ p.fields =
              [ ("percentage", .num (percentage info))
              , ("capacity_health", .num (capacityHealth info))
              , ("charging", .num (chargingCode info.status))
              , ("voltage", .num (voltageVolts info))
              , ("energy_wh", .num (energyWh info))
              , ("cycle_count", .int info.cycleCount)
              , ("status", .str info.status) ])
      ∧ flushCountOf (tickActions cfg bats fs) = 1 := by
  refine ⟨influxPointsOf_tickActions cfg bats fs hi, ?_,
    flushCountOf_tickActions cfg bats fs hi⟩
  intro p hp
  rw [influxPointsOf_tickActions cfg bats fs hi] at hp
  obtain ⟨b, hb, hfb⟩ := List.mem_filterMap.mp hp
  cases hr : readBatteryInfo fs b with
  | none => rw [hr] at hfb; simp at hfb
  | some info =>
    rw [hr] at hfb
    obtain rfl : mkPoint cfg.host b info = p := Option.some.inj hfb
    exact ⟨b, info, hb, hr, rfl, rfl⟩

/-- Witness for the amended C8 at a concrete two-device tick where one
device reads successfully and the other fails. -/
theorem c8_influx_points_amended_witness :
    influxPointsOf (tickActions cfgInflux ["BAT0", "BAT1"] fsSample)
        = ["BAT0", "BAT1"].filterMap (fun b =>
            (readBatteryInfo fsSample b).map (mkPoint cfgInflux.host b))
      ∧ flushCountOf (tickActions cfgInflux ["BAT0", "BAT1"] fsSample) = 1 :=
  ⟨(c8_influx_points_amended cfgInflux ["BAT0", "BAT1"] fsSample rfl).1,
    (c8_influx_points_amended cfgInflux ["BAT0", "BAT1"] fsSample rfl).2.2⟩

/-- C9: all gauge writes of the loop go through the gauge set created for
the first enumerated device, with devices distinguished only by the label
value: after any number of ticks, a non-first device's own gauge vectors
have no children at all (never written), its vectors are not registered
for exposition, every write action in the trace addresses the first
device's set, and every push collects the first device's set. -/
theorem c9_first_device_gauge_set (cfg : Config) (b0 : String)
    (rest : List String) (fsSeq : Nat → String → Option (List String))
    (n : Nat) (d : String) (hd : d ≠ b0) :
    (∀ k, (loopState cfg (b0 :: rest) fsSeq n).gauges d k = [])
      ∧ (∀ k, (d, k) ∉ (loopState cfg (b0 :: rest) fsSeq n).registered)
      ∧ (∀ own key l v,
          Action.setG own key l v ∈ flatTrace cfg (b0 :: rest) fsSeq n → own = b0)
      ∧ (∀ own,
          Action.pushAll own ∈ flatTrace cfg (b0 :: rest) fsSeq n → own = b0) := by
  have howner := flatTrace_setG_owner cfg (b0 :: rest) fsSeq n
  refine ⟨?_, ?_, howner, flatTrace_pushAll_owner cfg (b0 :: rest) fsSeq n⟩
  · apply applyActions_gauges_other
    · intro own key l v hm
      rw [howner own key l v hm]
      exact hd
    · intro k; rfl
  · intro k hmem
    rw [loopState, applyActions_registered] at hmem
    obtain ⟨k', -, hk'⟩ := List.mem_map.mp hmem
    exact hd (congrArg Prod.fst hk').symm

/-- Witness for C9 with two devices after one tick. -/
theorem c9_first_device_gauge_set_witness :
    (loopState cfgProm ["BAT0", "BAT1"] (fun _ => fsSample) 1).gauges
        "BAT1" "percentage" = []
      ∧ ("BAT1", "percentage")
          ∉ (loopState cfgProm ["BAT0", "BAT1"] (fun _ => fsSample) 1).registered :=
  ⟨(c9_first_device_gauge_set cfgProm "BAT0" ["BAT1"] (fun _ => fsSample) 1
      "BAT1" (by decide)).1 "percentage",
    (c9_first_device_gauge_set cfgProm "BAT0" ["BAT1"] (fun _ => fsSample) 1
      "BAT1" (by decide)).2.1 "percentage"⟩

/-- C10: a read of any (gauge, key, label) cell at any interleaving point
of the write trace — after any prefix of the atomic gauge writes of the
first `n` ticks — yields either the series' initial state (absent, since
`initPrometheusMetrics` creates no children) or a value that some write
action in that prefix wrote for exactly that gauge, key and label; never
any other value. -/
theorem c10_no_garbage_reads (cfg : Config) (bats : List String)
    (fsSeq : Nat → String → Option (List String)) (n j : Nat)
    (d k l : String) :
    lookupChild ((applyActions ((flatTrace cfg bats fsSeq n).take j)
          (initPrometheusMetrics bats)).gauges d k) l = none
      ∨ ∃ v,
          lookupChild ((applyActions ((flatTrace cfg bats fsSeq n).take j)
              (initPrometheusMetrics bats)).gauges d k) l = some v
            ∧ Action.setG d k l v ∈ (flatTrace cfg bats fsSeq n).take j := by
  rcases lookupChild_applyActions_cases ((flatTrace cfg bats fsSeq n).take j)
      (initPrometheusMetrics bats) d k l with h | h
  · left
    rw [h]
    rfl
  · right
    exact h

end PowerExporter
